import Mathlib

/-!
Verification development for the WebScrapingProject crawl pipeline.

The development shallowly embeds the parts of the code that the stated
properties are about:

* the data model (`ProductRef`, `ProductRecord`);
* the url-keyed deduplication performed in `ScrapingOrchestrator.run_scraping`
  by the Python dict comprehension over discovered products;
* `ProductExtractor.extract_product_details`, as a pure function of the
  xpath query results of the product detail page;
* `WebScraper.fetch_page`, over an oracle describing the network outcome;
* the two worker loops of `workers.py` (`scrape_product_worker`,
  `database_writer_worker`), as functions over the finite streams of items
  each thread pops from its queue, producing traces of observable actions;
* `DatabaseManager.__enter__` / `__exit__` (commit / rollback semantics);
* the control flow of `ScrapingOrchestrator.run_scraping`, as an event
  trace parameterised by the discovery results and the environment.

Stateful and concurrent behaviour is modelled by explicit streams and
traces; machine-level concerns (real time, thread scheduling) appear only
as the ordering of events within these traces.
-/

/-- A discovered product reference, as built by
`ScrapingOrchestrator._get_product_links_from_category_page`: the dict
written as name_on_listing / url / category_on_listing in the source. -/
structure ProductRef where
  url : String
  name_on_listing : String
  category_on_listing : String
deriving DecidableEq, Repr

/-- The extracted product data dict. `ProductExtractor.extract_product_details`
fills every field except `url`; the worker then assigns the url key
(workers.py line 57). All fields are strings, matching the schema of the
products table. A record fresh from the extractor carries the empty string
in `url`, modelling the not-yet-assigned key. -/
structure ProductRecord where
  product_name : String
  category : String
  price_median : String
  price_low : String
  price_high : String
  description : String
  url : String
deriving DecidableEq, Repr

/-! ## Deduplication (orchestrator.py line 156)

The source builds a dict comprehension keyed by url over all discovered
products and takes its values. A Python dict keeps insertion order of first
key occurrence and, on a duplicate key, replaces the stored value in place.
`dictInsert` is one insertion step and `dedupByUrl` folds it over the
discovered list. -/

/-- One step of building the dict keyed by url: a present key has its value
replaced in place (keeping its position), an absent key is appended. -/
def dictInsert (acc : List ProductRef) (p : ProductRef) : List ProductRef :=
  if ∃ q ∈ acc, q.url = p.url then
    acc.map (fun q => if q.url = p.url then p else q)
  else
    acc ++ [p]

/-- The values of the dict comprehension over the discovered products, in
dict iteration order. -/
def dedupByUrl (l : List ProductRef) : List ProductRef :=
  l.foldl dictInsert []

/-- The list of products put on the product url queue
(orchestrator.py lines 158-165): in test mode the deduplicated list is
truncated to the configured limit before being queued. -/
def queuedProducts (testMode : Bool) (limit : Nat) (l : List ProductRef) :
    List ProductRef :=
  if testMode then (dedupByUrl l).take limit else dedupByUrl l

/-- Modelled from the claim wording (spec-side characterisation, for
comparison with the code-side `dedupByUrl`): the urls of a list in their
order of first occurrence, each kept once. -/
def firstOccurrenceUrls : List String → List String
  | [] => []
  | u :: rest => u :: firstOccurrenceUrls (rest.filter (fun v => v != u))
termination_by l => l.length
decreasing_by
  simp only [List.length_cons]
  exact Nat.lt_succ_of_le (List.length_filter_le _ _)

/-- The action of `dictInsert` on the key order alone. -/
def insertKey (us : List String) (u : String) : List String :=
  if u ∈ us then us else us ++ [u]

/-! ### Facts about the dict fold -/

theorem dedupByUrl_concat (l : List ProductRef) (p : ProductRef) :
    dedupByUrl (l ++ [p]) = dictInsert (dedupByUrl l) p := by
  simp [dedupByUrl, List.foldl_append]

/-- Inserting into the dict acts on the key order as `insertKey`. -/
theorem map_url_dictInsert (acc : List ProductRef) (p : ProductRef) :
    (dictInsert acc p).map (fun q => q.url) =
      insertKey (acc.map (fun q => q.url)) p.url := by
  unfold dictInsert insertKey
  by_cases h : ∃ q ∈ acc, q.url = p.url
  · have hmem : p.url ∈ acc.map (fun q => q.url) := by
      obtain ⟨q, hq, he⟩ := h
      exact List.mem_map.mpr ⟨q, hq, he⟩
    rw [if_pos h, if_pos hmem, List.map_map]
    apply List.map_congr_left
    intro q _
    simp only [Function.comp_apply]
    by_cases hqu : q.url = p.url
    · rw [if_pos hqu]; exact hqu.symm
    · rw [if_neg hqu]
  · have hmem : p.url ∉ acc.map (fun q => q.url) := by
      intro hc
      obtain ⟨q, hq, he⟩ := List.mem_map.mp hc
      exact h ⟨q, hq, he⟩
    rw [if_neg h, if_neg hmem, List.map_append]
    rfl

/-- The key order of the whole dict fold is the `insertKey` fold of the urls. -/
theorem map_url_foldl_dictInsert (l : List ProductRef) :
    ∀ acc : List ProductRef,
      (l.foldl dictInsert acc).map (fun q => q.url) =
        (l.map (fun q => q.url)).foldl insertKey (acc.map (fun q => q.url)) := by
  induction l with
  | nil => intro acc; rfl
  | cons p rest ih =>
    intro acc
    simp only [List.foldl_cons, List.map_cons]
    rw [ih (dictInsert acc p), map_url_dictInsert]

/-- The `insertKey` fold keeps already-seen keys and appends fresh keys in
first-occurrence order. -/
theorem foldl_insertKey_eq (l : List String) :
    ∀ us : List String,
      l.foldl insertKey us =
        us ++ firstOccurrenceUrls (l.filter (fun u => decide (u ∉ us))) := by
  induction l with
  | nil => intro us; simp [firstOccurrenceUrls]
  | cons u rest ih =>
    intro us
    simp only [List.foldl_cons, List.filter_cons]
    by_cases h : u ∈ us
    · have hk : insertKey us u = us := by rw [insertKey, if_pos h]
      have hd : (decide (u ∉ us)) = false := by simp [h]
      rw [hk, hd, ih us, if_neg (by decide)]
    · have hk : insertKey us u = us ++ [u] := by rw [insertKey, if_neg h]
      have hd : (decide (u ∉ us)) = true := by simp [h]
      rw [hk, hd, ih (us ++ [u]), if_pos rfl, firstOccurrenceUrls,
        List.filter_filter, List.append_assoc, List.singleton_append]
      have hf : rest.filter (fun v => decide (v ∉ us ++ [u])) =
          rest.filter (fun a => (a != u) && decide (a ∉ us)) := by
        apply List.filter_congr
        intro v _
        by_cases hv : v = u
        · subst hv; simp
        · have hb : (v != u) = true := by simp [hv]
          simp [hb, hv, List.mem_append]
      rw [hf]

/-- The urls of the deduplicated list are exactly the distinct urls of the
input, in order of first occurrence. -/
theorem map_url_dedupByUrl (l : List ProductRef) :
    (dedupByUrl l).map (fun q => q.url) =
      firstOccurrenceUrls (l.map (fun q => q.url)) := by
  have h1 := map_url_foldl_dictInsert l []
  have h2 := foldl_insertKey_eq (l.map (fun q => q.url)) []
  simp only [List.map_nil] at h1
  have hf : (l.map (fun q => q.url)).filter
      (fun u => decide (u ∉ ([] : List String))) = l.map (fun q => q.url) := by
    apply List.filter_eq_self.mpr
    intro a _
    simp
  rw [dedupByUrl, h1, h2, hf, List.nil_append]

/-- Replacing the entries matching a different key does not change which
entry a url lookup finds. -/
theorem find?_map_replace_ne (p : ProductRef) (u : String) (hne : u ≠ p.url) :
    ∀ acc : List ProductRef,
      (acc.map (fun q => if q.url = p.url then p else q)).find?
          (fun q => q.url == u) =
        acc.find? (fun q => q.url == u) := by
  intro acc
  induction acc with
  | nil => rfl
  | cons q rest ih =>
    simp only [List.map_cons, List.find?_cons]
    by_cases hq : q.url = p.url
    · rw [if_pos hq]
      have hne2 : ¬p.url = u := fun h2 => hne h2.symm
      have h1 : (p.url == u) = false := by simp [hne2]
      have h2 : (q.url == u) = false := by rw [hq]; simp [hne2]
      rw [h1, h2]
      exact ih
    · rw [if_neg hq]
      cases hqu : (q.url == u) with
      | true => rfl
      | false => exact ih

/-- When the key is present, the in-place replacement is what a lookup for
that key finds first. -/
theorem find?_map_replace_eq (p : ProductRef) :
    ∀ acc : List ProductRef, (∃ q ∈ acc, q.url = p.url) →
      (acc.map (fun q => if q.url = p.url then p else q)).find?
          (fun q => q.url == p.url) = some p := by
  intro acc
  induction acc with
  | nil => rintro ⟨q, hq, _⟩; exact absurd hq (List.not_mem_nil q)
  | cons q rest ih =>
    rintro ⟨r, hr, hru⟩
    simp only [List.map_cons, List.find?_cons]
    by_cases hq : q.url = p.url
    · rw [if_pos hq]
      have : (p.url == p.url) = true := by simp
      rw [this]
    · rw [if_neg hq]
      have hqf : (q.url == p.url) = false := by simp [hq]
      rw [hqf]
      apply ih
      rcases List.mem_cons.mp hr with h | h
      · exact absurd (h ▸ hru) hq
      · exact ⟨r, h, hru⟩

/-- Effect of one dict insertion on a url lookup: the inserted value is
found under its own key, lookups of other keys are unchanged. -/
theorem find?_dictInsert (acc : List ProductRef) (p : ProductRef) (u : String) :
    (dictInsert acc p).find? (fun q => q.url == u) =
      if u = p.url then some p else acc.find? (fun q => q.url == u) := by
  unfold dictInsert
  by_cases h : ∃ q ∈ acc, q.url = p.url
  · rw [if_pos h]
    by_cases hu : u = p.url
    · rw [if_pos hu, hu]
      exact find?_map_replace_eq p acc h
    · rw [if_neg hu]
      exact find?_map_replace_ne p u hu acc
  · rw [if_neg h, List.find?_append]
    by_cases hu : u = p.url
    · rw [if_pos hu]
      have hnone : acc.find? (fun q => q.url == u) = none := by
        rw [List.find?_eq_none]
        intro q hq
        simp only [beq_iff_eq]
        intro he
        exact h ⟨q, hq, he ▸ hu ▸ rfl⟩
      rw [hnone, Option.none_or, List.find?_cons]
      have : (p.url == u) = true := by simp [hu]
      rw [this]
    · rw [if_neg hu]
      have hne2 : ¬p.url = u := fun h2 => hu h2.symm
      have hpn : List.find? (fun q => q.url == u) [p] = none := by
        simp only [List.find?_cons, List.find?_nil]
        have : (p.url == u) = false := by simp [hne2]
        rw [this]
      rw [hpn, Option.or_none]

/-- Lookup after the whole fold: the last matching entry of the input wins,
falling back to the accumulator. -/
theorem find?_foldl_dictInsert (u : String) (l : List ProductRef) :
    ∀ acc : List ProductRef,
      (l.foldl dictInsert acc).find? (fun q => q.url == u) =
        ((l.filter (fun q => q.url == u)).getLast?).or
          (acc.find? (fun q => q.url == u)) := by
  induction l with
  | nil => intro acc; simp
  | cons p rest ih =>
    intro acc
    simp only [List.foldl_cons, List.filter_cons]
    rw [ih (dictInsert acc p), find?_dictInsert]
    by_cases hu : u = p.url
    · have hb : (p.url == u) = true := by simp [hu]
      rw [if_pos hu, hb, if_pos rfl, List.getLast?_cons]
      cases hg : (rest.filter (fun q => q.url == u)).getLast? with
      | none => rfl
      | some r => rfl
    · have hne2 : ¬p.url = u := fun h2 => hu h2.symm
      have hb : (p.url == u) = false := by simp [hne2]
      rw [if_neg hu, hb]
      simp only [Bool.false_eq_true, if_false]

/-- Last-seen-wins: the deduplicated entry for a url is the last discovered
ProductRef carrying that url. -/
theorem dedupByUrl_find? (l : List ProductRef) (u : String) :
    (dedupByUrl l).find? (fun q => q.url == u) =
      (l.filter (fun q => q.url == u)).getLast? := by
  rw [dedupByUrl, find?_foldl_dictInsert u l []]
  simp

/-- Membership in the first-occurrence url list coincides with membership
in the original list. -/
theorem mem_firstOccurrenceUrls (v : String) :
    ∀ l : List String, v ∈ firstOccurrenceUrls l ↔ v ∈ l := by
  intro l
  induction l using firstOccurrenceUrls.induct with
  | case1 => simp [firstOccurrenceUrls]
  | case2 u rest ih =>
    rw [firstOccurrenceUrls]
    simp only [List.mem_cons, ih, List.mem_filter]
    constructor
    · rintro (h | ⟨h, _⟩)
      · exact Or.inl h
      · exact Or.inr h
    · rintro (h | h)
      · exact Or.inl h
      · by_cases hv : v = u
        · exact Or.inl hv
        · refine Or.inr ⟨h, ?_⟩
          simp [hv]

/-- The first-occurrence url list has no duplicates. -/
theorem nodup_firstOccurrenceUrls :
    ∀ l : List String, (firstOccurrenceUrls l).Nodup := by
  intro l
  induction l using firstOccurrenceUrls.induct with
  | case1 => simp [firstOccurrenceUrls]
  | case2 u rest ih =>
    rw [firstOccurrenceUrls]
    refine List.nodup_cons.mpr ⟨?_, ih⟩
    rw [mem_firstOccurrenceUrls]
    intro hmem
    have := (List.mem_filter.mp hmem).2
    simp at this

/-- The deduplicated list has exactly one entry per distinct url of the
input, and none for urls that never occur. -/
theorem dedupByUrl_countP (l : List ProductRef) (u : String) :
    (dedupByUrl l).countP (fun q => q.url == u) =
      if u ∈ l.map (fun q => q.url) then 1 else 0 := by
  have hc : (dedupByUrl l).countP (fun q => q.url == u) =
      ((dedupByUrl l).map (fun q => q.url)).count u := by
    rw [List.count, List.countP_map]
    rfl
  rw [hc, map_url_dedupByUrl]
  by_cases h : u ∈ l.map (fun q => q.url)
  · rw [if_pos h]
    exact List.count_eq_one_of_mem (nodup_firstOccurrenceUrls _)
      ((mem_firstOccurrenceUrls u _).mpr h)
  · rw [if_neg h]
    apply List.count_eq_zero_of_not_mem
    rw [mem_firstOccurrenceUrls]
    exact h

/-- C3: For every finite sequence of ProductRefs (possibly containing
duplicate urls), the deduplication step yields a collection with exactly
one entry per distinct url (and none for absent urls); the entry found for
a url is the last-encountered ProductRef with that url, so its name and
category fields come from that last occurrence; and when test mode is
enabled, at most the configured maximum count of these deduplicated
entries are placed on the product queue. -/
theorem C3_dedup_unique_last_wins_test_cap (l : List ProductRef) (u : String)
    (limit : Nat) :
    ((dedupByUrl l).countP (fun q => q.url == u) =
        if u ∈ l.map (fun q => q.url) then 1 else 0)
    ∧ ((dedupByUrl l).find? (fun q => q.url == u) =
        (l.filter (fun q => q.url == u)).getLast?)
    ∧ (queuedProducts true limit l).length ≤ limit
    ∧ ∀ p ∈ queuedProducts true limit l, p ∈ dedupByUrl l := by
  refine ⟨dedupByUrl_countP l u, dedupByUrl_find? l u, ?_, ?_⟩
  · rw [queuedProducts, if_pos rfl]
    exact List.length_take_le limit (dedupByUrl l)
  · intro p hp
    rw [queuedProducts, if_pos rfl] at hp
    exact List.mem_of_mem_take hp

/-- C10: For every finite sequence of discovered ProductRefs, the
deduplicated collection preserves the discovery order of first occurrence
of each distinct url, so the test-mode truncation keeps exactly the first
cap-many distinct urls in discovery order, not an arbitrary subset. -/
theorem C10_dedup_keeps_first_occurrence_order (l : List ProductRef)
    (cap : Nat) :
    ((dedupByUrl l).map (fun q => q.url) =
        firstOccurrenceUrls (l.map (fun q => q.url)))
    ∧ ((queuedProducts true cap l).map (fun q => q.url) =
        (firstOccurrenceUrls (l.map (fun q => q.url))).take cap) := by
  constructor
  · exact map_url_dedupByUrl l
  · rw [queuedProducts, if_pos rfl, List.map_take, map_url_dedupByUrl]

/-! ## Extractor (product_extractor.py lines 23-103)

`ProductExtractor.extract_product_details` only ever inspects the results
of five xpath queries on the product detail tree. A parsed detail page is
therefore embedded as those query results; `text_content().strip()` and
`text()` nodes appear as the already-extracted strings, with `String.trim`
modelling the Python str.strip of surrounding whitespace. -/

/-- Result of the price range container xpath: the relative text nodes of
its first and second span children. -/
structure RangeBox where
  span1Texts : List String
  span2Texts : List String
deriving DecidableEq, Repr

/-- A parsed product detail page, abstracted by the five xpath query
results that `extract_product_details` reads. Each list is in document
order; the extractor only ever uses the head. -/
structure ProductPage where
  nameDetailTexts : List String
  descriptionTexts : List String
  medianPriceTexts : List String
  priceRangeBoxes : List RangeBox
  breadcrumbCategoryTexts : List String
deriving DecidableEq, Repr

/-- The detail page with none of the expected elements present. -/
def emptyProductPage : ProductPage :=
  { nameDetailTexts := []
    descriptionTexts := []
    medianPriceTexts := []
    priceRangeBoxes := []
    breadcrumbCategoryTexts := [] }

/-- The description filter of product_extractor.py lines 57-61: keep texts
longer than 20 characters that do not start (case-insensitively) with
"what is" or "how it works". -/
def descriptionFilter (texts : List String) : List String :=
  (texts.map String.trim).filter (fun t =>
    decide (20 < t.length) &&
      !(t.toLower.startsWith "what is") && !(t.toLower.startsWith "how it works"))

/-- `ProductExtractor.extract_product_details`: starts from the fallback /
placeholder dict of lines 37-44 and overwrites each field whenever the
corresponding query has a result. The url field stays unset (empty string);
the worker assigns it afterwards. -/
def extract_product_details (page : ProductPage)
    (listing_product_name listing_category : String) : ProductRecord :=
  let base : ProductRecord :=
    { product_name := listing_product_name
      category := listing_category
      price_median := "Not specified"
      price_low := "Not specified"
      price_high := "Not specified"
      description := "No detailed description found."
      url := "" }
  let r1 := match page.nameDetailTexts with
    | [] => base
    | t :: _ => { base with product_name := t.trim }
  let filtered := descriptionFilter page.descriptionTexts
  let r2 := match filtered with
    | [] => r1
    | _ :: _ => { r1 with description := String.intercalate "\n" filtered }
  let r3 := match page.medianPriceTexts with
    | [] => r2
    | t :: _ => { r2 with price_median := t.trim }
  let r4 := match page.priceRangeBoxes with
    | [] => r3
    | box :: _ =>
      let rl := match box.span1Texts with
        | [] => r3
        | t :: _ => { r3 with price_low := t.trim }
      match box.span2Texts with
        | [] => rl
        | t :: _ => { rl with price_high := t.trim }
  match page.breadcrumbCategoryTexts with
  | [] => r4
  | t :: _ => { r4 with category := t.trim }

/-- Field-wise reading of the extractor: each field depends only on its own
query result, since the sequential overwrites of the source touch disjoint
fields. -/
theorem extract_product_details_fields (page : ProductPage)
    (fbn fbc : String) :
    extract_product_details page fbn fbc =
      { product_name := match page.nameDetailTexts with
          | [] => fbn
          | t :: _ => t.trim
        category := match page.breadcrumbCategoryTexts with
          | [] => fbc
          | t :: _ => t.trim
        price_median := match page.medianPriceTexts with
          | [] => "Not specified"
          | t :: _ => t.trim
        price_low := match page.priceRangeBoxes with
          | [] => "Not specified"
          | box :: _ => match box.span1Texts with
            | [] => "Not specified"
            | t :: _ => t.trim
        price_high := match page.priceRangeBoxes with
          | [] => "Not specified"
          | box :: _ => match box.span2Texts with
            | [] => "Not specified"
            | t :: _ => t.trim
        description := match descriptionFilter page.descriptionTexts with
          | [] => "No detailed description found."
          | _ :: _ => String.intercalate "\n"
              (descriptionFilter page.descriptionTexts)
        url := "" } := by
  obtain ⟨ns, ds, ms, rs, bs⟩ := page
  simp only [extract_product_details]
  cases hd : descriptionFilter ds <;>
    cases ns <;> cases ms <;> cases bs <;>
      rcases rs with _ | ⟨⟨s1, s2⟩, rs⟩ <;>
        (try rcases s1 with _ | ⟨t1, s1⟩) <;>
          (try rcases s2 with _ | ⟨t2, s2⟩) <;>
            simp [hd]

/-- C9: For every parsed document and every fallback name and category,
the extractor is a pure total function (a Lean function of its inputs that
always returns a `ProductRecord`, whose fields are all strings): when the
detail page lacks the expected elements, product_name and category equal
the fallback values, and price_median, price_low, price_high and
description take the placeholder defaults "Not specified" /
"No detailed description found." when their expected structure is absent. -/
theorem C9_extract_total_with_fallbacks (page : ProductPage)
    (fbn fbc : String) :
    (page.nameDetailTexts = [] →
        (extract_product_details page fbn fbc).product_name = fbn)
    ∧ (page.breadcrumbCategoryTexts = [] →
        (extract_product_details page fbn fbc).category = fbc)
    ∧ (page.medianPriceTexts = [] →
        (extract_product_details page fbn fbc).price_median = "Not specified")
    ∧ (page.priceRangeBoxes = [] →
        (extract_product_details page fbn fbc).price_low = "Not specified"
        ∧ (extract_product_details page fbn fbc).price_high = "Not specified")
    ∧ (page.descriptionTexts = [] →
        (extract_product_details page fbn fbc).description =
          "No detailed description found.")
    ∧ extract_product_details emptyProductPage fbn fbc =
        { product_name := fbn, category := fbc,
          price_median := "Not specified", price_low := "Not specified",
          price_high := "Not specified",
          description := "No detailed description found.", url := "" } := by
  refine ⟨?_, ?_, ?_, ?_, ?_, ?_⟩
  · intro h; rw [extract_product_details_fields]; simp [h]
  · intro h; rw [extract_product_details_fields]; simp [h]
  · intro h; rw [extract_product_details_fields]; simp [h]
  · intro h; rw [extract_product_details_fields]; simp [h]
  · intro h; rw [extract_product_details_fields]; simp [h, descriptionFilter]
  · rw [extract_product_details_fields]
    simp [emptyProductPage, descriptionFilter]

/-- Witness for C9 at a concrete empty detail page. -/
theorem C9_extract_total_with_fallbacks_witness :
    (extract_product_details emptyProductPage "A" "devops").product_name = "A"
    ∧ (extract_product_details emptyProductPage "A" "devops").price_median =
        "Not specified" := by
  have h := C9_extract_total_with_fallbacks emptyProductPage "A" "devops"
  exact ⟨h.1 rfl, h.2.2.1 rfl⟩

/-! ## Fetcher (web_scraper.py lines 34-69)

`WebScraper.fetch_page` sleeps when asked, resolves the url, issues one GET
with a 10 second timeout through the shared session, parses the body, and
maps every failure of the try block to the return value None. The network
and parser are the environment; one call is embedded as a function of an
oracle describing their outcome. The observable side effects (sleeping,
issuing the request) are returned as an action trace. -/

/-- The exception classes the source catches, one per except clause. -/
inductive FetchError
  | requestException
  | xmlSyntaxError
  | otherException
deriving DecidableEq, Repr

/-- Outcome of the GET-plus-parse performed inside the try block: a parsed
tree, or one of the caught failures. -/
inductive NetOutcome
  | ok (doc : ProductPage)
  | err (e : FetchError)
deriving DecidableEq, Repr

/-- Observable actions of one `fetch_page` call. -/
inductive FetchAction
  | sleepFor (seconds : Nat)
  | httpGet (url : String) (timeoutSeconds : Nat)
deriving DecidableEq, Repr

/-- Python str.startswith, at the character-list level of the string (the
builtin String.startsWith has the same meaning but its byte-position
implementation does not reduce in the kernel, which would make witnesses
non-computable). -/
def pyStartsWith (s p : String) : Bool :=
  p.data.isPrefixOf s.data

/-- Splits a character list at the first occurrence of "://", returning the
scheme part and the remainder. -/
def splitScheme : List Char → Option (List Char × List Char)
  | [] => none
  | c :: rest =>
      if [':', '/', '/'].isPrefixOf (c :: rest) then
        some ([], (c :: rest).drop 3)
      else
        match splitScheme rest with
        | none => none
        | some (a, b) => some (c :: a, b)

/-- Modelled urljoin for absolute-path references (urls starting with "/"),
the only shape `fetch_page` feeds to it: the result keeps the scheme and
authority of the base and replaces its path with the given one. -/
def pyUrljoin (base url : String) : String :=
  match splitScheme base.data with
  | some (scheme, rest) =>
      String.mk (scheme ++ [':', '/', '/'] ++
        rest.takeWhile (fun c => c ≠ '/') ++ url.data)
  | none => url

/-- The full_url computation of web_scraper.py line 51: urljoin against the
configured base when the url is relative (starts with "/"), the url itself
otherwise. -/
def resolveUrl (base url : String) : String :=
  if pyStartsWith url "/" then pyUrljoin base url else url

/-- `WebScraper.fetch_page`: the action trace of one call and its return
value. Every failure outcome is caught and returns none; the function is
total, modelling that no exception escapes the fetch boundary. -/
def fetch_page (base : String) (net : NetOutcome) (url : String)
    (sleep_time : Nat) : List FetchAction × Option ProductPage :=
  let pre := if 0 < sleep_time then [FetchAction.sleepFor sleep_time] else []
  let acts := pre ++ [FetchAction.httpGet (resolveUrl base url) 10]
  match net with
  | NetOutcome.ok doc => (acts, some doc)
  | NetOutcome.err _ => (acts, none)

/-- C8: For every url and delay, fetch applies the pacing delay before
issuing the request, resolves relative urls against the configured base,
enforces the 10 second request timeout, and on any network, HTTP-status,
or parse failure returns None rather than raising past the fetch boundary
(the embedding is a total function into an Option). -/
theorem C8_fetch_page_delay_resolve_timeout_failure (base url : String)
    (sleep_time : Nat) (net : NetOutcome) :
    (0 < sleep_time →
        (fetch_page base net url sleep_time).1 =
          [FetchAction.sleepFor sleep_time,
            FetchAction.httpGet (resolveUrl base url) 10])
    ∧ (sleep_time = 0 →
        (fetch_page base net url sleep_time).1 =
          [FetchAction.httpGet (resolveUrl base url) 10])
    ∧ (pyStartsWith url "/" = true → resolveUrl base url = pyUrljoin base url)
    ∧ (pyStartsWith url "/" = false → resolveUrl base url = url)
    ∧ (∀ e, net = NetOutcome.err e →
        (fetch_page base net url sleep_time).2 = none)
    ∧ (∀ doc, net = NetOutcome.ok doc →
        (fetch_page base net url sleep_time).2 = some doc) := by
  refine ⟨?_, ?_, ?_, ?_, ?_, ?_⟩
  · intro h
    cases net <;> simp [fetch_page, h]
  · intro h
    cases net <;> simp [fetch_page, h]
  · intro h
    rw [resolveUrl, if_pos h]
  · intro h
    rw [resolveUrl, if_neg (by simp [h])]
  · intro e he
    subst he
    rfl
  · intro doc hd
    subst hd
    rfl

/-- Witness for C8: a relative url, a positive delay, and a failing fetch. -/
theorem C8_fetch_page_witness :
    (fetch_page "https://example.test" (NetOutcome.err FetchError.requestException)
        "/marketplace/a" 2).1 =
      [FetchAction.sleepFor 2,
        FetchAction.httpGet "https://example.test/marketplace/a" 10]
    ∧ (fetch_page "https://example.test"
        (NetOutcome.err FetchError.requestException) "/marketplace/a" 2).2 =
      none := by
  have h := C8_fetch_page_delay_resolve_timeout_failure "https://example.test"
    "/marketplace/a" 2 (NetOutcome.err FetchError.requestException)
  refine ⟨?_, h.2.2.2.2.1 FetchError.requestException rfl⟩
  have h1 := h.1 (by decide)
  rw [h1]
  have h3 := h.2.2.1 (by decide)
  rw [h3]
  rfl

/-! ## Scraper workers (workers.py lines 13-75)

`scrape_product_worker` loops: pop from the product url queue with a 1.5s
timeout (queue.Empty ends the loop), break on the None sentinel after
task_done, otherwise fetch the product page, push the extracted record on
success, skip with a warning on fetch failure, and on any other exception
log it, call task_done and continue. A worker thread is embedded as a
function of the finite stream of items it pops from the queue; the fetch /
extract environment behaviour for each popped ProductRef travels with the
item. The observable effects form an action trace. -/

/-- Environment behaviour for one popped ProductRef: fetch_page returns a
parsed tree, fetch_page returns None, or some exception is raised during
the fetch / extract / put steps of the loop body. -/
inductive ItemBehavior
  | fetchOk (doc : ProductPage)
  | fetchFail
  | unexpectedError
deriving DecidableEq, Repr

/-- One value popped from the product url queue: a ProductRef dict
(together with its environment behaviour) or the None sentinel. -/
inductive QueueItem
  | item (p : ProductRef) (b : ItemBehavior)
  | sentinel
deriving DecidableEq, Repr

/-- Observable actions of the scraper worker loop. `taskDone` is the
product queue slot completion mark feeding `Queue.join`. -/
inductive WorkerAction
  | fetchStart (url : String)
  | putRecord (r : ProductRecord)
  | logWarning
  | logError
  | taskDone
deriving DecidableEq, Repr

/-- How the worker loop ended: by popping the sentinel, or by the 1.5s
queue.Empty timeout with nothing left. -/
inductive WorkerExit
  | sentinelExit
  | timeoutExit
deriving DecidableEq, Repr

/-- The loop body of workers.py lines 40-71 for one non-sentinel item. On
fetch success the extracted dict gets the canonical url of the ProductRef
(line 57) and is pushed before task_done (lines 59, 64); on fetch failure
only a warning is logged; on an unexpected exception the handler of lines
68-71 logs and still calls task_done. -/
def workerStep (p : ProductRef) (b : ItemBehavior) : List WorkerAction :=
  match b with
  | ItemBehavior.fetchOk doc =>
      [WorkerAction.fetchStart p.url,
        WorkerAction.putRecord
          { extract_product_details doc p.name_on_listing p.category_on_listing
              with url := p.url },
        WorkerAction.taskDone]
  | ItemBehavior.fetchFail =>
      [WorkerAction.fetchStart p.url, WorkerAction.logWarning,
        WorkerAction.taskDone]
  | ItemBehavior.unexpectedError =>
      [WorkerAction.fetchStart p.url, WorkerAction.logError,
        WorkerAction.taskDone]

/-- The whole worker loop over the stream of items this thread pops: stops
at the first sentinel (task_done then break, line 36-38), runs the loop
body otherwise, and exits by timeout when the stream runs dry. -/
def workerRun : List QueueItem → List WorkerAction × WorkerExit
  | [] => ([], WorkerExit.timeoutExit)
  | QueueItem.sentinel :: _ => ([WorkerAction.taskDone], WorkerExit.sentinelExit)
  | QueueItem.item p b :: rest =>
      let r := workerRun rest
      (workerStep p b ++ r.1, r.2)

/-- Bool test: did the fetch succeed for this behaviour. -/
def isOkBehavior : ItemBehavior → Bool
  | ItemBehavior.fetchOk _ => true
  | _ => false

/-- Bool test: queue item that is a ProductRef whose fetch succeeds. -/
def isOkItem : QueueItem → Bool
  | QueueItem.item _ b => isOkBehavior b
  | QueueItem.sentinel => false

/-- Bool test for the record push action. -/
def isPutRecord : WorkerAction → Bool
  | WorkerAction.putRecord _ => true
  | _ => false

/-- Bool test for the completion mark action. -/
def isTaskDone : WorkerAction → Bool
  | WorkerAction.taskDone => true
  | _ => false

/-- The record extracted from a push action, if any. -/
def recOf : WorkerAction → Option ProductRecord
  | WorkerAction.putRecord r => some r
  | _ => none

/-- The records a worker pushes onto the record queue, in push order. -/
def recordsEmitted (w : List QueueItem) : List ProductRecord :=
  (workerRun w).1.filterMap recOf

/-- Content of the record queue after phase 3 for a given schedule: all
records the workers put, then the single sentinel the orchestrator puts
after every worker thread has exited (orchestrator.py line 217). -/
def recordQueueFinal (ws : List (List QueueItem)) : List (Option ProductRecord) :=
  ((ws.map recordsEmitted).flatten.map some) ++ [none]

/-- Each loop body marks exactly one queue slot processed. -/
theorem workerStep_taskDone (p : ProductRef) (b : ItemBehavior) :
    (workerStep p b).countP isTaskDone = 1 := by
  cases b <;> rfl

/-- Each loop body pushes one record exactly when the fetch succeeded. -/
theorem workerStep_records_length (p : ProductRef) (b : ItemBehavior) :
    ((workerStep p b).filterMap recOf).length =
      if isOkBehavior b then 1 else 0 := by
  cases b <;> rfl

/-- Behaviour of a worker whose stream is a sentinel-free front followed by
the sentinel: it exits via the sentinel, its last action is the completion
mark of the sentinel slot, and it pushes exactly one record per
successfully fetched item of the front. -/
theorem workerRun_sentinel_spec :
    ∀ front : List QueueItem, QueueItem.sentinel ∉ front →
      (workerRun (front ++ [QueueItem.sentinel])).2 = WorkerExit.sentinelExit
      ∧ (workerRun (front ++ [QueueItem.sentinel])).1.getLast? =
          some WorkerAction.taskDone
      ∧ (recordsEmitted (front ++ [QueueItem.sentinel])).length =
          front.countP isOkItem := by
  intro front
  induction front with
  | nil => intro _; exact ⟨rfl, rfl, rfl⟩
  | cons x front ih =>
    intro h
    have hx : x ≠ QueueItem.sentinel := fun he => h (he ▸ List.mem_cons_self x front)
    have h2 : QueueItem.sentinel ∉ front := fun hm => h (List.mem_cons_of_mem x hm)
    obtain ⟨hex, hlast, hrec⟩ := ih h2
    cases x with
    | sentinel => exact absurd rfl hx
    | item p b =>
      refine ⟨hex, ?_, ?_⟩
      · show (workerStep p b ++ (workerRun (front ++ [QueueItem.sentinel])).1).getLast? =
          some WorkerAction.taskDone
        rw [List.getLast?_append, hlast]
        rfl
      · show ((workerStep p b ++ (workerRun (front ++ [QueueItem.sentinel])).1).filterMap
            recOf).length = (QueueItem.item p b :: front).countP isOkItem
        rw [List.filterMap_append, List.length_append]
        rw [List.countP_cons]
        have := workerStep_records_length p b
        rw [this]
        rw [recordsEmitted] at hrec
        rw [hrec]
        have hok : isOkItem (QueueItem.item p b) = isOkBehavior b := rfl
        rw [hok]
        omega

/-- C4: For every ProductRef consumed by a worker: if the fetch returns
Failure, no record is pushed onto the record queue for it (dropped with no
retry) and its queue slot is still marked processed; if the fetch
succeeds, exactly one extracted record with the canonical url attached is
pushed onto the record queue before the slot is marked processed (the
push precedes the single taskDone in the body trace). -/
theorem C4_worker_item_fetch_outcomes (p : ProductRef) (b : ItemBehavior) :
    (b = ItemBehavior.fetchFail →
        (workerStep p b).countP isPutRecord = 0
        ∧ (workerStep p b).countP isTaskDone = 1
        ∧ workerStep p b =
            [WorkerAction.fetchStart p.url, WorkerAction.logWarning,
              WorkerAction.taskDone])
    ∧ (∀ doc, b = ItemBehavior.fetchOk doc →
        workerStep p b =
          [WorkerAction.fetchStart p.url,
            WorkerAction.putRecord
              { extract_product_details doc p.name_on_listing
                  p.category_on_listing with url := p.url },
            WorkerAction.taskDone]) := by
  constructor
  · intro h
    subst h
    exact ⟨rfl, rfl, rfl⟩
  · intro doc h
    subst h
    rfl

/-- Witness for C4 at a concrete ProductRef with a failing fetch. -/
theorem C4_worker_item_fetch_outcomes_witness :
    workerStep ⟨"https://example.test/marketplace/a", "A", "devops"⟩
        ItemBehavior.fetchFail =
      [WorkerAction.fetchStart "https://example.test/marketplace/a",
        WorkerAction.logWarning, WorkerAction.taskDone] :=
  ((C4_worker_item_fetch_outcomes
      ⟨"https://example.test/marketplace/a", "A", "devops"⟩
      ItemBehavior.fetchFail).1 rfl).2.2

/-- C6: For every exception other than queue-empty raised inside the loop
body after popping a non-sentinel item, the worker logs the error, marks
the queue slot of that item processed (exactly one taskDone), and continues the
loop with the remaining stream instead of terminating, so the queue
completion count still reaches zero. -/
theorem C6_worker_unexpected_error_continues (p : ProductRef)
    (rest : List QueueItem) :
    workerRun (QueueItem.item p ItemBehavior.unexpectedError :: rest) =
      (workerStep p ItemBehavior.unexpectedError ++ (workerRun rest).1,
        (workerRun rest).2)
    ∧ WorkerAction.logError ∈ workerStep p ItemBehavior.unexpectedError
    ∧ (workerStep p ItemBehavior.unexpectedError).countP isTaskDone = 1 := by
  refine ⟨rfl, ?_, rfl⟩
  simp [workerStep]

/-- C2: For a worker pool of size N and a product queue pre-loaded with K
ProductRefs followed by N Sentinels — embedded as any split of those queue
values into per-worker pop streams in which each worker pops up to and
including its sentinel — the loop of every worker terminates by popping a
Sentinel (with the completion mark for that slot as its final action), the
record queue receives exactly one record per successfully fetched
ProductRef and hence at most K records (fewer when some fetches fail),
and exactly one record-queue Sentinel is appended afterwards by the
orchestrator, as the last queue entry. -/
theorem C2_worker_pool_terminates_record_bound
    (N : Nat) (refs : List (ProductRef × ItemBehavior))
    (ws : List (List QueueItem))
    (hlen : ws.length = N)
    (hend : ∀ w ∈ ws, ∃ front, w = front ++ [QueueItem.sentinel]
        ∧ QueueItem.sentinel ∉ front)
    (hperm : ws.flatten.Perm
        (refs.map (fun pb => QueueItem.item pb.1 pb.2) ++
          List.replicate N QueueItem.sentinel)) :
    (∀ w ∈ ws, (workerRun w).2 = WorkerExit.sentinelExit
        ∧ (workerRun w).1.getLast? = some WorkerAction.taskDone)
    ∧ (ws.map recordsEmitted).flatten.length =
        refs.countP (fun pb => isOkBehavior pb.2)
    ∧ (ws.map recordsEmitted).flatten.length ≤ refs.length
    ∧ (recordQueueFinal ws).countP (fun o => o.isNone) = 1
    ∧ (recordQueueFinal ws).getLast? = some none := by
  have hworker : ∀ w ∈ ws, (workerRun w).2 = WorkerExit.sentinelExit
      ∧ (workerRun w).1.getLast? = some WorkerAction.taskDone
      ∧ (recordsEmitted w).length = w.countP isOkItem := by
    intro w hw
    obtain ⟨front, hfe, hfs⟩ := hend w hw
    obtain ⟨h1, h2, h3⟩ := workerRun_sentinel_spec front hfs
    subst hfe
    refine ⟨h1, h2, ?_⟩
    have h0 : List.countP isOkItem [QueueItem.sentinel] = 0 := rfl
    rw [h3, List.countP_append, h0]
    omega
  have hcount : (ws.map recordsEmitted).flatten.length =
      refs.countP (fun pb => isOkBehavior pb.2) := by
    rw [List.length_flatten, List.map_map]
    have hpt : (ws.map (List.length ∘ recordsEmitted)).sum =
        (ws.map (fun w => w.countP isOkItem)).sum := by
      apply congrArg List.sum
      apply List.map_congr_left
      intro w hw
      exact (hworker w hw).2.2
    rw [hpt, ← List.countP_flatten, hperm.countP_eq isOkItem,
      List.countP_append, List.countP_map, List.countP_replicate]
    have hz : (isOkItem QueueItem.sentinel = true) = False := by
      simp [isOkItem]
    rw [if_neg (by simp [isOkItem])]
    rfl
  refine ⟨fun w hw => ⟨(hworker w hw).1, (hworker w hw).2.1⟩, hcount, ?_, ?_, ?_⟩
  · rw [hcount]
    exact List.countP_le_length _
  · rw [recordQueueFinal, List.countP_append, List.countP_map]
    have hzero : List.countP ((fun o : Option ProductRecord => o.isNone) ∘ some)
        (ws.map recordsEmitted).flatten = 0 := by
      apply List.countP_eq_zero.mpr
      intro a _
      simp
    rw [hzero]
    rfl
  · exact List.getLast?_concat _

/-- Witness for C2 with one worker and one failing ProductRef. -/
theorem C2_worker_pool_terminates_record_bound_witness :
    (workerRun [QueueItem.item ⟨"u", "A", "devops"⟩ ItemBehavior.fetchFail,
        QueueItem.sentinel]).2 = WorkerExit.sentinelExit
    ∧ (([[QueueItem.item ⟨"u", "A", "devops"⟩ ItemBehavior.fetchFail,
          QueueItem.sentinel]].map recordsEmitted).flatten).length = 0 := by
  have h := C2_worker_pool_terminates_record_bound 1
    [(⟨"u", "A", "devops"⟩, ItemBehavior.fetchFail)]
    [[QueueItem.item ⟨"u", "A", "devops"⟩ ItemBehavior.fetchFail,
      QueueItem.sentinel]]
    rfl
    (by
      intro w hw
      rw [List.mem_singleton] at hw
      subst hw
      refine ⟨[QueueItem.item ⟨"u", "A", "devops"⟩ ItemBehavior.fetchFail],
        rfl, ?_⟩
      intro hm
      simp at hm)
    (by simp)
  constructor
  · exact (h.1 _ (List.mem_singleton.mpr rfl)).1
  · rw [h.2.1]
    rfl

/-! ## Database manager scope and the writer loop
(database.py lines 141-160, workers.py lines 78-110)

`DatabaseManager` is used by the writer as a context manager: `__enter__`
connects and begins the transaction, `__exit__` rolls back when an
exception reached it and commits otherwise, then always disconnects. The
writer loop pops records with a 10s timeout, stops on the sentinel or on
queue.Empty, and wraps each upsert in its own try / except / finally so a
single failing record is logged, its slot still marked processed, and the
loop continues. -/

/-- One value popped from the record queue: a record together with whether
its upsert raises (the environment behaviour of the store), or the None
sentinel. -/
inductive WriterItem
  | record (r : ProductRecord) (insertOk : Bool)
  | sentinel
deriving DecidableEq, Repr

/-- Observable actions of the writer loop. `taskDone` marks the record
queue slot processed. -/
inductive WriterAction
  | insertAttempt (r : ProductRecord)
  | logInsertError
  | taskDone
deriving DecidableEq, Repr

/-- Actions of `DatabaseManager.__exit__`. -/
inductive DbAction
  | commit
  | rollback
  | disconnect
deriving DecidableEq, Repr

/-- `DatabaseManager.__exit__` (database.py lines 148-160): with an active
connection, rollback when an exception propagated out of the with-body and
commit otherwise; always disconnect. -/
def dbExit (excOccurred connActive : Bool) : List DbAction :=
  (if excOccurred then
      (if connActive then [DbAction.rollback] else [])
    else
      (if connActive then [DbAction.commit] else [])) ++ [DbAction.disconnect]

/-- The with-statement of workers.py line 87 around a body that either
returns normally or raises: `__exit__` receives whether an exception
propagated. The connection opened by `__enter__` is active. -/
def withDbManager {A : Type} (body : Except Unit A) : List DbAction :=
  match body with
  | Except.ok _ => dbExit false true
  | Except.error _ => dbExit true true

/-- The writer loop of workers.py lines 88-106 over the stream of items
this thread pops: sentinel marks its slot and breaks; a record is
attempted, a failing upsert is logged, and the finally-block marks the
slot processed either way; an empty stream is the queue.Empty timeout. -/
def writerLoop : List WriterItem → List WriterAction
  | [] => []
  | WriterItem.sentinel :: _ => [WriterAction.taskDone]
  | WriterItem.record r ok :: rest =>
      (if ok then
          [WriterAction.insertAttempt r, WriterAction.taskDone]
        else
          [WriterAction.insertAttempt r, WriterAction.logInsertError,
            WriterAction.taskDone]) ++ writerLoop rest

/-- The writer body as the with-statement sees it: the loop catches every
per-record failure (each upsert attempt sits in its own try / except /
finally), so the body always returns normally. -/
def writerBody (items : List WriterItem) : Except Unit (List WriterAction) :=
  Except.ok (writerLoop items)

/-- C5: The scoped transactional handle commits when the scope exits
without an uncaught exception and rolls back when an exception propagates
through the scope; a single failing upsert inside the writer loop is
caught and logged, the slot is marked processed, the loop continues with
the rest of the stream, and — since the body then still returns normally —
such a per-record failure does not by itself trigger the rollback path. -/
theorem C5_writer_scope_commit_rollback (items : List WriterItem)
    (acts : List WriterAction) (e : Unit) (r : ProductRecord)
    (rest : List WriterItem) :
    withDbManager (Except.ok acts) = [DbAction.commit, DbAction.disconnect]
    ∧ withDbManager (Except.error e : Except Unit (List WriterAction)) =
        [DbAction.rollback, DbAction.disconnect]
    ∧ writerLoop (WriterItem.record r false :: rest) =
        [WriterAction.insertAttempt r, WriterAction.logInsertError,
          WriterAction.taskDone] ++ writerLoop rest
    ∧ withDbManager (writerBody items) =
        [DbAction.commit, DbAction.disconnect] := by
  exact ⟨rfl, rfl, rfl, rfl⟩

/-! ## Orchestrator control flow (orchestrator.py lines 65-92 and 125-235)

`_get_category_links` returns the empty list when the landing page fetch
fails, and otherwise filters the candidate hrefs by substring match
against the configured keyword set. `run_scraping` is embedded as the
event trace of one run, parameterised by the discovery results, the
configuration, and whether the writer thread was still alive after the
bounded join. The queue semantics behind the events: `joinProductQueue`
returns only once every enqueued item has been marked processed by
task_done calls, and each `putWorkerSentinel` / `putRecordSentinel` is one
put of None on the respective queue. -/

/-- Python substring membership (needle in hay) at the character level. -/
def occursIn (needle : List Char) : List Char → Bool
  | [] => needle.isEmpty
  | c :: rest => needle.isPrefixOf (c :: rest) || occursIn needle rest

/-- Python str membership test: `keyword in link`. -/
def pyIn (needle hay : String) : Bool :=
  occursIn needle.data hay.data

/-- `ScrapingOrchestrator._get_category_links`: empty when the main page
fetch failed, else the candidate hrefs filtered to those containing any
configured category keyword. The fetched tree is abstracted by the list of
candidate hrefs its category buttons carry. -/
def getCategoryLinks (mainPage : Option (List String))
    (neededCategories : List String) : List String :=
  match mainPage with
  | none => []
  | some allLinks =>
      allLinks.filter (fun link =>
        neededCategories.any (fun keyword => pyIn keyword link))

/-- Events of one `run_scraping` call, in program order. -/
inductive OrchEvent
  | createTable
  | enqueueProduct (p : ProductRef)
  | startWriterThread
  | startWorkerThread (i : Nat)
  | joinProductQueue
  | putWorkerSentinel
  | awaitWorkerThreads
  | putRecordSentinel
  | joinWriterThread (timeoutSeconds : Nat)
  | logWriterNotStopped
  | closeSession
  | logTiming
deriving DecidableEq, Repr

/-- The event trace of `ScrapingOrchestrator.run_scraping`: create the
table, return early when no category links were found (line 138) or when
nothing was queued (line 168), otherwise start the writer thread, start
the worker pool, join the product queue, put one worker sentinel per
thread, await the workers, put the single record sentinel, join the
writer with the 300s bound, log when it is still alive — and in every
case run the finally-block teardown (close the fetch session, log the
timing summary). -/
def run_scraping_trace (categoryLinks : List String)
    (discovered : List ProductRef) (testMode : Bool) (limit : Nat)
    (threadCount : Nat) (writerStillAlive : Bool) : List OrchEvent :=
  let queued := queuedProducts testMode limit discovered
  let body :=
    [OrchEvent.createTable] ++
    (if categoryLinks = [] then
      []
    else
      (queued.map OrchEvent.enqueueProduct) ++
      (if queued = [] then
        []
      else
        [OrchEvent.startWriterThread] ++
        ((List.range threadCount).map
          (fun i => OrchEvent.startWorkerThread (i + 1))) ++
        [OrchEvent.joinProductQueue] ++
        List.replicate threadCount OrchEvent.putWorkerSentinel ++
        [OrchEvent.awaitWorkerThreads, OrchEvent.putRecordSentinel,
          OrchEvent.joinWriterThread 300] ++
        (if writerStillAlive then [OrchEvent.logWriterNotStopped] else [])))
  body ++ [OrchEvent.closeSession, OrchEvent.logTiming]

/-- C7: For every run in which category discovery returns an empty
sequence — which includes every run whose landing-page fetch fails, since
`getCategoryLinks none keywords = []` — the run aborts early: no product
is enqueued, no worker thread is started, the writer thread is never
started, and teardown (session close, timing log) still executes. -/
theorem C7_empty_discovery_aborts_early :
    (∀ keywords : List String, getCategoryLinks none keywords = [])
    ∧ ∀ (discovered : List ProductRef) (testMode : Bool) (limit N : Nat)
        (alive : Bool),
        (∀ p, OrchEvent.enqueueProduct p ∉
            run_scraping_trace [] discovered testMode limit N alive)
        ∧ (∀ i, OrchEvent.startWorkerThread i ∉
            run_scraping_trace [] discovered testMode limit N alive)
        ∧ OrchEvent.startWriterThread ∉
            run_scraping_trace [] discovered testMode limit N alive
        ∧ OrchEvent.closeSession ∈
            run_scraping_trace [] discovered testMode limit N alive
        ∧ OrchEvent.logTiming ∈
            run_scraping_trace [] discovered testMode limit N alive := by
  constructor
  · intro keywords
    rfl
  · intro discovered testMode limit N alive
    have ht : run_scraping_trace [] discovered testMode limit N alive =
        [OrchEvent.createTable, OrchEvent.closeSession, OrchEvent.logTiming] := by
      rw [run_scraping_trace]
      simp
    rw [ht]
    refine ⟨?_, ?_, ?_, ?_, ?_⟩
    · intro p
      simp
    · intro i
      simp
    · simp
    · simp
    · simp

/-- Bool test for the product enqueue event. -/
def isEnqueueEvent : OrchEvent → Bool
  | OrchEvent.enqueueProduct _ => true
  | _ => false

/-- C1: For every run in which at least one ProductRef is enqueued, the
orchestrator enqueues the N worker Sentinels on the product queue only
after the product queue join (which returns only once every enqueued
ProductRef has been marked processed by some worker), enqueues exactly
one Sentinel on the record queue and only after all N worker threads have
exited, waits at most the bounded 300s timeout for the writer thread, and
proceeds to teardown whether or not the writer exited. -/
theorem C1_orchestrator_shutdown_handshake (categoryLinks : List String)
    (discovered : List ProductRef) (testMode : Bool) (limit N : Nat)
    (alive : Bool) (hlinks : categoryLinks ≠ [])
    (hq : queuedProducts testMode limit discovered ≠ []) :
    ∃ pre post : List OrchEvent,
      run_scraping_trace categoryLinks discovered testMode limit N alive =
        pre ++ [OrchEvent.joinProductQueue] ++
          List.replicate N OrchEvent.putWorkerSentinel ++
          [OrchEvent.awaitWorkerThreads, OrchEvent.putRecordSentinel,
            OrchEvent.joinWriterThread 300] ++ post
      ∧ OrchEvent.putWorkerSentinel ∉ pre
      ∧ OrchEvent.putRecordSentinel ∉ pre
      ∧ OrchEvent.putRecordSentinel ∉ post
      ∧ (run_scraping_trace categoryLinks discovered testMode limit N
            alive).countP isEnqueueEvent = pre.countP isEnqueueEvent
      ∧ OrchEvent.closeSession ∈ post
      ∧ OrchEvent.logTiming ∈ post := by
  refine ⟨[OrchEvent.createTable] ++
      ((queuedProducts testMode limit discovered).map OrchEvent.enqueueProduct) ++
      [OrchEvent.startWriterThread] ++
      ((List.range N).map (fun i => OrchEvent.startWorkerThread (i + 1))),
    (if alive then [OrchEvent.logWriterNotStopped] else []) ++
      [OrchEvent.closeSession, OrchEvent.logTiming], ?_, ?_, ?_, ?_, ?_, ?_, ?_⟩
  · rw [run_scraping_trace]
    rw [if_neg hlinks, if_neg hq]
    simp only [List.append_assoc, List.cons_append, List.nil_append]
  · simp
  · simp
  · cases alive <;> simp
  · rw [run_scraping_trace, if_neg hlinks, if_neg hq]
    cases alive <;>
      simp [List.countP_append, List.countP_cons, List.countP_replicate,
        isEnqueueEvent]
  · cases alive <;> simp
  · cases alive <;> simp

/-- Witness for C1 at a concrete run: one category link, one discovered
ProductRef, two workers, and a writer still alive after the bounded join. -/
theorem C1_orchestrator_shutdown_handshake_witness :
    ∃ pre post : List OrchEvent,
      run_scraping_trace ["devops"] [⟨"u", "A", "devops"⟩] false 7 2 true =
        pre ++ [OrchEvent.joinProductQueue] ++
          List.replicate 2 OrchEvent.putWorkerSentinel ++
          [OrchEvent.awaitWorkerThreads, OrchEvent.putRecordSentinel,
            OrchEvent.joinWriterThread 300] ++ post
      ∧ OrchEvent.putWorkerSentinel ∉ pre
      ∧ OrchEvent.putRecordSentinel ∉ pre
      ∧ OrchEvent.putRecordSentinel ∉ post
      ∧ (run_scraping_trace ["devops"] [⟨"u", "A", "devops"⟩] false 7 2
            true).countP isEnqueueEvent = pre.countP isEnqueueEvent
      ∧ OrchEvent.closeSession ∈ post
      ∧ OrchEvent.logTiming ∈ post := by
  apply C1_orchestrator_shutdown_handshake ["devops"] [⟨"u", "A", "devops"⟩]
    false 7 2 true
  · intro h
    exact List.noConfusion h
  · intro h
    have : ([⟨"u", "A", "devops"⟩] : List ProductRef) =
        queuedProducts false 7 [⟨"u", "A", "devops"⟩] := by
      rw [queuedProducts, if_neg Bool.false_ne_true, dedupByUrl]
      rfl
    rw [← this] at h
    exact List.noConfusion h
